import Mathlib

/-
Shallow embedding of the task persistence and validation core of the
ReadingDeclaration application (Task entity, TaskValidator, InputValidator,
StorageManager, TaskManager), together with theorems settling the frozen
claims about its specification.

Modelling conventions:
* JS strings are lists of characters (`Str`); `.length` is the character
  count (all inputs used in concrete theorems are BMP characters, where
  this agrees with JS UTF-16 code-unit length).
* Timestamps (`Date` values) are modelled by the instant they denote, a
  `Nat`; `new Date(x)` applied to a timestamp and ISO-8601 serialization
  followed by re-parsing both preserve the instant, so they are the
  identity `newDate` in this model.
* `Math.random`-based UUID generation and `Date.now()` are nondeterministic
  inputs; operations that consume them take the fresh id / current time as
  explicit parameters.
* The browser key-value store holds, per store, an optional raw value for
  the single logical key; a raw value is either a well-formed JSON array of
  task records (the only thing the adapter ever writes) or garbage that
  `JSON.parse`/`.map` fails on (external corruption).
* A regular-expression engine over `Str` (`RE`, `matchK`) gives JS-style
  leftmost, greedy, backtracking matching for the validator's patterns,
  including `lastIndex` state for `RegExp.test` on `g`-flagged patterns.
-/

namespace RD

abbrev Str := List Char

/-- Convert a Lean string literal to the character-list model. -/
def toL (s : String) : Str := s.data

/-- The JS whitespace class: the characters matched by `\s` and removed by
`String.prototype.trim` (WhiteSpace plus LineTerminator). -/
def isJsSpace (c : Char) : Bool :=
  let n := c.toNat
  n == 0x09 || n == 0x0A || n == 0x0B || n == 0x0C || n == 0x0D || n == 0x20 ||
  n == 0xA0 || n == 0x1680 || (0x2000 ≤ n && n ≤ 0x200A) || n == 0x2028 ||
  n == 0x2029 || n == 0x202F || n == 0x205F || n == 0x3000 || n == 0xFEFF

/-- JS `String.prototype.trim`: drop leading and trailing whitespace. -/
def jsTrim (s : Str) : Str := List.rdropWhile isJsSpace (List.dropWhile isJsSpace s)

/-- Character-wise expansion: the effect of a global single-character
regex replacement, and of DOM text-node escaping. -/
def expand (f : Char → Str) : Str → Str
  | [] => []
  | c :: r => f c ++ expand f r

/-- JS `s.replace(/c/g, rep)` for a single literal character `c`. -/
def replaceChar (t : Char) (rep : Str) (s : Str) : Str :=
  expand (fun c => if c = t then rep else [c]) s

namespace TaskValidator

/-- TaskValidator.sanitizeInput (src/unnamed/part_000): trim, then escape
the five characters in source order with global single-char replaces. -/
def sanitizeInput (s : Str) : Str :=
  replaceChar '/' (toL "&#x2F;")
    (replaceChar '\'' (toL "&#x27;")
      (replaceChar '"' (toL "&quot;")
        (replaceChar '>' (toL "&gt;")
          (replaceChar '<' (toL "&lt;") (jsTrim s)))))

/-- Validation error tags standing for the Japanese error messages. -/
inductive VErr where
  | titleRequired | titleBlank | titleTooLong | authorTooLong
deriving DecidableEq

structure VResult where
  isValid : Bool
  errors : List VErr
deriving DecidableEq

/-- TaskValidator.validateBookTitle. -/
def validateBookTitle (title : Str) : VResult :=
  let errors : List VErr :=
    if title = [] then [VErr.titleRequired]
    else (if jsTrim title = [] then [VErr.titleBlank] else []) ++
         (if title.length > 100 then [VErr.titleTooLong] else [])
  { isValid := errors.isEmpty, errors := errors }

/-- TaskValidator.validateAuthor: the author is optional. -/
def validateAuthor (author : Str) : VResult :=
  let errors : List VErr :=
    if author ≠ [] ∧ author.length > 50 then [VErr.authorTooLong] else []
  { isValid := errors.isEmpty, errors := errors }

structure TaskFields where
  bookTitle : Str
  author : Str
deriving DecidableEq

/-- TaskValidator.validateTaskData. -/
def validateTaskData (d : TaskFields) : VResult :=
  let t := validateBookTitle d.bookTitle
  let a := validateAuthor d.author
  let allErrors := t.errors ++ a.errors
  { isValid := allErrors.isEmpty, errors := allErrors }

structure Prepared where
  data : TaskFields
  validation : VResult
deriving DecidableEq

/-- TaskValidator.prepareTaskData: sanitize both fields, then validate the
sanitized values. -/
def prepareTaskData (bookTitle author : Str) : Prepared :=
  let sanitizedTitle := sanitizeInput bookTitle
  let sanitizedAuthor := sanitizeInput author
  { data := { bookTitle := sanitizedTitle, author := sanitizedAuthor },
    validation := validateTaskData
      { bookTitle := sanitizedTitle, author := sanitizedAuthor } }

end TaskValidator

/-! Idempotence development for TaskValidator.sanitizeInput. -/

/-- The per-character effect of the five chained replaces. -/
def tvEscChar (c : Char) : Str :=
  if c = '<' then toL "&lt;"
  else if c = '>' then toL "&gt;"
  else if c = '"' then toL "&quot;"
  else if c = '\'' then toL "&#x27;"
  else if c = '/' then toL "&#x2F;"
  else [c]

/-- The five chained replaces, without the leading trim. -/
def tvEsc (u : Str) : Str :=
  replaceChar '/' (toL "&#x2F;")
    (replaceChar '\'' (toL "&#x27;")
      (replaceChar '"' (toL "&quot;")
        (replaceChar '>' (toL "&gt;")
          (replaceChar '<' (toL "&lt;") u))))


/-- The five characters escaped by TaskValidator.sanitizeInput. -/
def isTvSpecial (c : Char) : Bool :=
  c == '<' || c == '>' || c == '"' || c == '\'' || c == '/'


/-! A small JS-style regular-expression engine (backtracking, leftmost,
greedy), sufficient for the validator's patterns. All of the validator's
patterns carry the `gi` flags, so literal characters match
case-insensitively and `RegExp.test` is stateful through `lastIndex`. -/

inductive RE where
  | eps
  | litCI (c : Char)
  | cls (p : Char → Bool)
  | seq (a b : RE)
  | star (a : RE)
  | opt (a : RE)
  | nlaStr (l : Str)
  | wordB
  | alt (a b : RE)

/-- A case-insensitive literal string as a regex. -/
def litStr : Str → RE
  | [] => .eps
  | c :: r => .seq (.litCI c) (litStr r)

/-- The regex `\w` class: ASCII letters, digits, underscore. -/
def isWordChar (c : Char) : Bool :=
  ('a' ≤ c && c ≤ 'z') || ('A' ≤ c && c ≤ 'Z') || ('0' ≤ c && c ≤ '9') || c == '_'

def wordAt (s : Str) (j : Nat) : Bool :=
  match s[j]? with
  | some c => isWordChar c
  | none => false

/-- Word boundary `\b` at position `i` of `s`. -/
def wordBoundaryAt (s : Str) (i : Nat) : Bool :=
  let left := if i = 0 then false else wordAt s (i - 1)
  left != wordAt s i

/-- Case-insensitive literal-prefix test at a position (for lookahead). -/
def startsWithCI : Str → Str → Nat → Bool
  | [], _, _ => true
  | c :: r, s, i =>
    match s[i]? with
    | some d => d.toLower == c.toLower && startsWithCI r s (i + 1)
    | none => false

/-- Backtracking matcher in continuation style. Alternatives are tried in
JS priority order: a star prefers one more (non-empty) iteration, `opt`
prefers presence. Fuel only bounds recursion depth; it is chosen large
enough for every concrete evaluation in this file. -/
def matchK : Nat → RE → Str → Nat → (Nat → Option Nat) → Option Nat
  | 0, _, _, _, _ => none
  | _ + 1, .eps, _, i, k => k i
  | _ + 1, .litCI c, s, i, k =>
    match s[i]? with
    | some d => if d.toLower = c.toLower then k (i + 1) else none
    | none => none
  | _ + 1, .cls p, s, i, k =>
    match s[i]? with
    | some d => if p d then k (i + 1) else none
    | none => none
  | fuel + 1, .seq a b, s, i, k => matchK fuel a s i (fun j => matchK fuel b s j k)
  | fuel + 1, .star a, s, i, k =>
    (matchK fuel a s i
      (fun j => if j = i then k j else matchK fuel (.star a) s j k)).orElse
      (fun _ => k i)
  | fuel + 1, .opt a, s, i, k => (matchK fuel a s i k).orElse (fun _ => k i)
  | _ + 1, .nlaStr l, s, i, k => if startsWithCI l s i then none else k i
  | _ + 1, .wordB, s, i, k => if wordBoundaryAt s i then k i else none
  | fuel + 1, .alt a b, s, i, k =>
    (matchK fuel a s i k).orElse (fun _ => matchK fuel b s i k)

def sizeRE : RE → Nat
  | .eps => 1
  | .litCI _ => 1
  | .cls _ => 1
  | .seq a b => sizeRE a + sizeRE b + 1
  | .star a => sizeRE a + 1
  | .opt a => sizeRE a + 1
  | .nlaStr _ => 1
  | .wordB => 1
  | .alt a b => sizeRE a + sizeRE b + 1

def reFuel (r : RE) (s : Str) : Nat := (s.length + 2) * (sizeRE r + 2)

/-- Try to match `r` at position `i` of `s`; returns the end position of
the (priority-first) match. -/
def matchAt (r : RE) (s : Str) (i : Nat) : Option Nat :=
  matchK (reFuel r s) r s i some

/-- Leftmost match search from a start position, as `RegExp.exec` does. -/
def searchGo (r : RE) (s : Str) : Nat → Nat → Option (Nat × Nat)
  | 0, _ => none
  | fuel + 1, i =>
    match matchAt r s i with
    | some j => some (i, j)
    | none => searchGo r s fuel (i + 1)

def searchFrom (r : RE) (s : Str) (start : Nat) : Option (Nat × Nat) :=
  searchGo r s (s.length + 1 - start) start

/-- JS `s.replace(r, '')` with a global regex: repeatedly remove the
leftmost match, continuing after each removed match. -/
def replaceGo (r : RE) (s : Str) : Nat → Nat → Str
  | 0, _ => []
  | fuel + 1, i =>
    match s[i]? with
    | none => []
    | some c =>
      match matchAt r s i with
      | some j =>
        if i < j then replaceGo r s fuel j else c :: replaceGo r s fuel (i + 1)
      | none => c :: replaceGo r s fuel (i + 1)

def reReplace (r : RE) (s : Str) : Str := replaceGo r s (s.length + 1) 0

/-- JS `r.test(s)` for a `g`-flagged regex: search from `lastIndex`; on a
hit set `lastIndex` to the match end, on a miss reset it to 0. -/
def reTest (r : RE) (s : Str) (lastIndex : Nat) : Bool × Nat :=
  match searchFrom r s lastIndex with
  | some (_, e) => (true, e)
  | none => (false, 0)

/-- Removal of ASCII control characters, `replace(/[\x00-\x1F\x7F]/g, '')`,
shared by InputValidator.sanitizeInput and StorageManager.sanitizeString. -/
def stripControl (s : Str) : Str :=
  s.filter (fun c => !(c.toNat ≤ 0x1F || c.toNat == 0x7F))

/-- Whitespace-run collapsing, `replace(/\s+/g, ' ')`, shared by
InputValidator.sanitizeInput and StorageManager.sanitizeString. -/
def collapseWs : Str → Str
  | [] => []
  | [c] => if isJsSpace c then [' '] else [c]
  | c :: d :: r =>
    if isJsSpace c then
      if isJsSpace d then collapseWs (d :: r) else ' ' :: collapseWs (d :: r)
    else c :: collapseWs (d :: r)

namespace InputValidator

/-- InputValidator.escapeHtml is DOM-based (`div.textContent` then
`div.innerHTML`); HTML fragment serialization of a text node escapes
exactly `&`, `<`, `>` and U+00A0 — and in particular does not touch
quotes. -/
def escapeHtmlChar (c : Char) : Str :=
  if c = '&' then toL "&amp;"
  else if c = Char.ofNat 0xA0 then toL "&nbsp;"
  else if c = '<' then toL "&lt;"
  else if c = '>' then toL "&gt;"
  else [c]

def escapeHtml (s : Str) : Str := expand escapeHtmlChar s

/-- Pattern of the form `<tag\b[^<]*(?:(?!<\/tag>)<[^<]*)*<\/tag>`. -/
def tagPairPat (tag : String) : RE :=
  .seq (litStr (toL ("<" ++ tag)))
    (.seq .wordB
      (.seq (.star (.cls (fun c => c != '<')))
        (.seq (.star (.seq (.nlaStr (toL ("</" ++ tag ++ ">")))
            (.seq (.litCI '<') (.star (.cls (fun c => c != '<'))))))
          (litStr (toL ("</" ++ tag ++ ">"))))))

/-- Pattern of the form `<tag\b[^>]*>`. -/
def tagOpenPat (tag : String) : RE :=
  .seq (litStr (toL ("<" ++ tag)))
    (.seq .wordB (.seq (.star (.cls (fun c => c != '>'))) (.litCI '>')))

/-- Pattern `on\w+\s*=`. -/
def onHandlerPat : RE :=
  .seq (litStr (toL "on"))
    (.seq (.cls isWordChar)
      (.seq (.star (.cls isWordChar))
        (.seq (.star (.cls isJsSpace)) (.litCI '='))))

/-- InputValidator.xssPatterns, in source order. -/
def xssPatterns : List RE :=
  [tagPairPat "script", tagPairPat "iframe", tagPairPat "object",
   tagPairPat "embed", tagOpenPat "link", tagOpenPat "meta",
   litStr (toL "javascript:"), litStr (toL "vbscript:"),
   litStr (toL "data:text/html"), onHandlerPat]

/-- InputValidator.sanitizeInput (src/js/input-validator.js): trim, then
DOM HTML-escape, then strip control characters, then collapse whitespace,
then remove each XSS pattern in order. -/
def sanitizeInput (s : Str) : Str :=
  let s1 := jsTrim s
  let s2 := escapeHtml s1
  let s3 := stripControl s2
  let s4 := collapseWs s3
  xssPatterns.foldl (fun acc r => reReplace r acc) s4

/-- One pass of InputValidator.containsXSS over the instance's pattern
list, threading each pattern's persistent `lastIndex`. -/
def testLoop : List RE → List Nat → Str → Bool × List Nat
  | [], ls, _ => (false, ls)
  | _ :: _, [], _ => (false, [])
  | r :: rs, li :: ls, s =>
    let t := reTest r s li
    if t.1 then (true, t.2 :: ls)
    else
      let rest := testLoop rs ls s
      (rest.1, t.2 :: rest.2)

/-- InputValidator.containsXSS: `pattern.test(input)` over the stored
`gi`-flagged patterns; the pair is (result, updated lastIndex state). -/
def containsXSS (st : List Nat) (s : Str) : Bool × List Nat :=
  testLoop xssPatterns st s

/-- The lastIndex state of a freshly constructed InputValidator. -/
def freshXssState : List Nat := List.replicate 10 0

end InputValidator

/-! The Task entity, StorageManager and TaskManager. -/

inductive Status where
  | active
  | completed
deriving DecidableEq

/-- `new Date(x)` on an instant-valued timestamp: the identity in this
model (ISO-8601 serialization and re-parsing preserve the instant). -/
def newDate (n : Nat) : Nat := n

/-- A plain task record: the shape produced by `Task.toJSON`, stored by
the adapter and mirrored by the manager. -/
structure TaskJson where
  id : Str
  bookTitle : Str
  author : Str
  status : Status
  createdAt : Nat
  completedAt : Option Nat
deriving DecidableEq

instance : Inhabited TaskJson := ⟨⟨[], [], [], Status.active, 0, none⟩⟩

/-- The Task entity class. -/
structure Task where
  id : Str
  bookTitle : Str
  author : Str
  status : Status
  createdAt : Nat
  completedAt : Option Nat
deriving DecidableEq

namespace Task

/-- The Task constructor; the generated UUID and `Date.now()` are the
explicit `freshId` and `now` parameters. -/
def construct (bookTitle author : Str) (freshId : Str) (now : Nat) : Task :=
  { id := freshId, bookTitle := bookTitle, author := author,
    status := Status.active, createdAt := now, completedAt := none }

/-- Task.complete() (src/unnamed/part_000 lines 265-268): unconditionally
sets `status = 'completed'` and `completedAt = new Date()`. -/
def complete (t : Task) (now : Nat) : Task :=
  { t with status := Status.completed, completedAt := some now }

def isActive (t : Task) : Bool := decide (t.status = Status.active)

def isCompleted (t : Task) : Bool := decide (t.status = Status.completed)

/-- Task.toJSON. -/
def toJSON (t : Task) : TaskJson :=
  { id := t.id, bookTitle := t.bookTitle, author := t.author,
    status := t.status, createdAt := t.createdAt, completedAt := t.completedAt }

/-- Task.fromJSON: runs the constructor (its fresh id / now are dummies)
and then overwrites id, status, createdAt and completedAt from the data. -/
def fromJSON (data : TaskJson) (freshId : Str) (now : Nat) : Task :=
  let t := construct data.bookTitle data.author freshId now
  { t with
    id := data.id
    status := data.status
    createdAt := newDate data.createdAt
    completedAt :=
      match data.completedAt with
      | some x => some (newDate x)
      | none => none }

end Task

/-- A raw value under the adapter's logical key: either the JSON encoding
of a record array (the only thing `saveTasks` ever writes), or externally
corrupted content on which `JSON.parse`/`.map` throws. -/
inductive RawVal where
  | json (l : List TaskJson)
  | garbage
deriving DecidableEq

/-- The browser environment: probe result for the primary store, contents
of both stores under the logical key, and whether `setItem` succeeds. -/
structure World where
  primaryAvail : Bool
  localS : Option RawVal
  sessionS : Option RawVal
  setOk : Bool
deriving DecidableEq

/-- The StorageManager's own mutable state. -/
structure SMState where
  fallbackToSession : Bool
deriving DecidableEq

/-- JS `Array.prototype.findIndex`, with `none` for -1. -/
def jsFindIndex {α : Type} (p : α → Bool) : List α → Option Nat
  | [] => none
  | a :: l => if p a then some 0 else (jsFindIndex p l).map (· + 1)

/-- JS indexed read `l[i]` (in this file only used in bounds). -/
def getAt {α : Type} [Inhabited α] (l : List α) (i : Nat) : α := (l[i]?).getD default

/-- JS indexed write `l[i] = x`. -/
def setAt {α : Type} : List α → Nat → α → List α
  | [], _, _ => []
  | _ :: l, 0, x => x :: l
  | a :: l, n + 1, x => a :: setAt l n x

/-- JS `l.splice(i, 1)`. -/
def spliceRemove {α : Type} : List α → Nat → List α
  | [], _ => []
  | _ :: l, 0 => l
  | a :: l, n + 1 => a :: spliceRemove l n

/-- JS `l.splice(i, 0, x)`. -/
def spliceInsert {α : Type} : List α → Nat → α → List α
  | l, 0, x => x :: l
  | [], _ + 1, x => [x]
  | a :: l, n + 1, x => a :: spliceInsert l n x

/-- Partial update record for StorageManager.updateTask; the only caller
passes `status` and `completedAt`. -/
structure TaskUpdates where
  status : Option Status
  completedAt : Option (Option Nat)
deriving DecidableEq

namespace StorageManager

/-- isStorageAvailable: probe write/remove on the primary store; returns
whether the primary store is currently usable, never throws. -/
def isStorageAvailable (w : World) : Bool := w.primaryAvail

/-- getStorage (src/js/storage-manager.js lines 30-37): re-probes on every
call; selecting the fallback sets the sticky `fallbackToSession` flag. -/
def getStorage (st : SMState) (w : World) : Bool × SMState :=
  if isStorageAvailable w then (true, st)
  else (false, { fallbackToSession := true })

def readKey (useLocal : Bool) (w : World) : Option RawVal :=
  if useLocal then w.localS else w.sessionS

def writeKey (useLocal : Bool) (v : RawVal) (w : World) : World :=
  if useLocal then { w with localS := some v } else { w with sessionS := some v }

def removeKey (useLocal : Bool) (w : World) : World :=
  if useLocal then { w with localS := none } else { w with sessionS := none }

/-- `JSON.parse` of the stored value followed by `.map` over the array:
`none` when the try-block would throw. -/
def parseTasks : RawVal → Option (List TaskJson)
  | .json l => some l
  | .garbage => none

/-- The date-reviving map of loadTasks: `new Date(task.createdAt)` and
`task.completedAt ? new Date(task.completedAt) : null`. -/
def reviveDates (t : TaskJson) : TaskJson :=
  { t with
    createdAt := newDate t.createdAt
    completedAt :=
      match t.completedAt with
      | some x => some (newDate x)
      | none => none }

/-- StorageManager.loadTasks (lines 43-64): absent key or unparsable
content give the empty array (the catch branch), never an error. -/
def loadTasks (st : SMState) (w : World) : List TaskJson × SMState :=
  let (loc, st') := getStorage st w
  match readKey loc w with
  | none => ([], st')
  | some raw =>
    match parseTasks raw with
    | none => ([], st')
    | some tasks => (tasks.map reviveDates, st')

/-- StorageManager.saveTasks: stringify and `setItem`, false on throw. -/
def saveTasks (st : SMState) (w : World) (tasks : List TaskJson) :
    Bool × SMState × World :=
  let (loc, st') := getStorage st w
  if w.setOk then (true, st', writeKey loc (.json tasks) w)
  else (false, st', w)

/-- StorageManager.sanitizeString: trim, strip control characters, remove
HTML tags (`/<[^>]*>/g`), collapse whitespace runs — in that order. -/
def dropThroughGt : Str → Option Str
  | [] => none
  | c :: r => if c = '>' then some r else dropThroughGt r

/-- Removal of `/<[^>]*>/g` matches: each `<` with a later `>` is removed
together with everything up to that first `>`. The fuel only bounds the
recursion depth; each step consumes at least one character, so a fuel of
one more than the length never runs out. -/
def removeHtmlTagsGo : Nat → Str → Str
  | 0, _ => []
  | _ + 1, [] => []
  | fuel + 1, c :: r =>
    if c = '<' then
      match dropThroughGt r with
      | some r2 => removeHtmlTagsGo fuel r2
      | none => c :: removeHtmlTagsGo fuel r
    else c :: removeHtmlTagsGo fuel r

def removeHtmlTags (s : Str) : Str := removeHtmlTagsGo (s.length + 1) s

def sanitizeString (s : Str) : Str :=
  collapseWs (removeHtmlTags (stripControl (jsTrim s)))

/-- StorageManager.validateTaskData (lines 181-228); field presence and
type checks are guaranteed by the record type and are omitted. -/
def validateTaskData (task : TaskJson) : Bool :=
  if task.id = [] then false
  else if jsTrim task.bookTitle = [] then false
  else if task.bookTitle.length > 100 then false
  else if task.author ≠ [] ∧ task.author.length > 50 then false
  else true

/-- StorageManager.sanitizeTaskData. -/
def sanitizeTaskData (task : TaskJson) : TaskJson :=
  { id := sanitizeString task.id,
    bookTitle := sanitizeString task.bookTitle,
    author := if task.author = [] then [] else sanitizeString task.author,
    status := task.status,
    createdAt := task.createdAt,
    completedAt := task.completedAt }

/-- StorageManager.saveTask (lines 88-108): validate, load, sanitize,
upsert, rewrite the whole collection. -/
def saveTask (st : SMState) (w : World) (task : TaskJson) :
    Bool × SMState × World :=
  if validateTaskData task = false then (false, st, w)
  else
    let (tasks, st1) := loadTasks st w
    let existingIndex := jsFindIndex (fun t => decide (t.id = task.id)) tasks
    let sanitized := sanitizeTaskData task
    let tasks' :=
      match existingIndex with
      | some i => setAt tasks i sanitized
      | none => tasks ++ [sanitized]
    saveTasks st1 w tasks'

/-- The spread merge `{ ...task, ...updates }`. -/
def applyUpdates (t : TaskJson) (u : TaskUpdates) : TaskJson :=
  { t with
    status := u.status.getD t.status
    completedAt := u.completedAt.getD t.completedAt }

/-- StorageManager.updateTask (lines 116-127). -/
def updateTask (st : SMState) (w : World) (taskId : Str) (updates : TaskUpdates) :
    Bool × SMState × World :=
  let (tasks, st1) := loadTasks st w
  match jsFindIndex (fun t => decide (t.id = taskId)) tasks with
  | none => (false, st1, w)
  | some i => saveTasks st1 w (setAt tasks i (applyUpdates (getAt tasks i) updates))

/-- StorageManager.deleteTask (lines 134-144). -/
def deleteTask (st : SMState) (w : World) (taskId : Str) : Bool × SMState × World :=
  let (tasks, st1) := loadTasks st w
  let filteredTasks := tasks.filter (fun t => decide (t.id ≠ taskId))
  if filteredTasks.length = tasks.length then (false, st1, w)
  else saveTasks st1 w filteredTasks

/-- StorageManager.clearAllTasks: `removeItem` on the selected store. -/
def clearAllTasks (st : SMState) (w : World) : Bool × SMState × World :=
  let (loc, st') := getStorage st w
  (true, st', removeKey loc w)

end StorageManager

/-- The collection `loadTasks` currently yields, which does not depend on
the manager state threaded through it. -/
def loadedView (w : World) : List TaskJson :=
  (StorageManager.loadTasks { fallbackToSession := false } w).1

/-- The joint state of a TaskManager, its StorageManager and the browser. -/
structure Sys where
  tm : List TaskJson
  sm : SMState
  w : World
deriving DecidableEq

namespace TaskManager

/-- TaskManager.loadTasks / refresh: replace the mirror with the
adapter's view (loadTasks in this model never throws). -/
def refresh (sys : Sys) : Sys :=
  let (tasks, sm') := StorageManager.loadTasks sys.sm sys.w
  { sys with tm := tasks, sm := sm' }

/-- TaskManager.addTask (src/js/task-manager.js lines 33-61): validate,
construct, push to the mirror, save; on save failure filter the new id
back out of the mirror and return null. -/
def addTask (sys : Sys) (bookTitle author : Str) (freshId : Str) (now : Nat) :
    Option TaskJson × Sys :=
  let prepared := TaskValidator.prepareTaskData bookTitle author
  if prepared.validation.isValid = false then (none, sys)
  else
    let task := Task.construct prepared.data.bookTitle prepared.data.author freshId now
    let tj := Task.toJSON task
    let tasks1 := sys.tm ++ [tj]
    let (saved, sm', w') := StorageManager.saveTask sys.sm sys.w tj
    if saved then (some tj, { tm := tasks1, sm := sm', w := w' })
    else
      (none,
        { tm := tasks1.filter (fun t => decide (t.id ≠ task.id))
          sm := sm'
          w := w' })

/-- TaskManager.completeTask (lines 68-105): guard on the mirror, update
the mirror in place, update storage, restore the entry on failure. -/
def completeTask (sys : Sys) (taskId : Str) (now : Nat) : Option TaskJson × Sys :=
  match jsFindIndex (fun t => decide (t.id = taskId)) sys.tm with
  | none => (none, sys)
  | some taskIndex =>
    let taskData := getAt sys.tm taskIndex
    if taskData.status = Status.completed then (none, sys)
    else
      let task := Task.fromJSON taskData [] 0
      let updatedTaskData := Task.toJSON (Task.complete task now)
      let tasks1 := setAt sys.tm taskIndex updatedTaskData
      let (saved, sm', w') := StorageManager.updateTask sys.sm sys.w taskId
        { status := some Status.completed,
          completedAt := some updatedTaskData.completedAt }
      if saved then (some updatedTaskData, { tm := tasks1, sm := sm', w := w' })
      else (none, { tm := setAt tasks1 taskIndex taskData, sm := sm', w := w' })

/-- TaskManager.deleteTask (lines 112-137): splice out of the mirror,
delete in storage, splice back in on failure. -/
def deleteTask (sys : Sys) (taskId : Str) : Bool × Sys :=
  match jsFindIndex (fun t => decide (t.id = taskId)) sys.tm with
  | none => (false, sys)
  | some taskIndex =>
    let deletedTask := getAt sys.tm taskIndex
    let tasks1 := spliceRemove sys.tm taskIndex
    let (deleted, sm', w') := StorageManager.deleteTask sys.sm sys.w taskId
    if deleted then (true, { tm := tasks1, sm := sm', w := w' })
    else
      (false,
        { tm := spliceInsert tasks1 taskIndex deletedTask
          sm := sm'
          w := w' })

end TaskManager

/-! Definitions written from the wording of the claims, for comparison
with the code, plus concrete sample states for counterexamples and
witnesses. -/

/-- Modelled from the wording of claim C3: an escape step for the five
characters `&`, `<`, `>`, `"`, `'` (standard entities). -/
def claimedEscapeChar (c : Char) : Str :=
  if c = '&' then toL "&amp;"
  else if c = '<' then toL "&lt;"
  else if c = '>' then toL "&gt;"
  else if c = '"' then toL "&quot;"
  else if c = '\'' then toL "&#x27;"
  else [c]

/-- Modelled from the wording of claim C3: trim, then collapse whitespace
runs, then strip control characters, then HTML-escape the five characters,
then remove the recognized script/markup patterns. -/
def claimedPipeline (s : Str) : Str :=
  InputValidator.xssPatterns.foldl (fun acc r => reReplace r acc)
    (expand claimedEscapeChar (stripControl (collapseWs (jsTrim s))))

/-- The pipeline InputValidator.sanitizeInput actually implements: trim,
then DOM HTML-escape (`&`, `<`, `>`, U+00A0 only — no quotes), then strip
control characters, then collapse whitespace runs, then remove the
recognized script/markup patterns. -/
def actualPipeline (s : Str) : Str :=
  InputValidator.xssPatterns.foldl (fun acc r => reReplace r acc)
    (collapseWs (stripControl (InputValidator.escapeHtml (jsTrim s))))

/-- The record completeTask writes back for a mirror entry `d`: the
entity round-trip `Task.toJSON(Task.fromJSON(d).complete())` (the dummy
constructor arguments of fromJSON are overwritten). -/
def completedSnapshot (d : TaskJson) (now : Nat) : TaskJson :=
  Task.toJSON (Task.complete (Task.fromJSON d [] 0) now)

/-- A browser environment with a working primary store and no data yet. -/
def wOK : World :=
  { primaryAvail := true, localS := none, sessionS := none, setOk := true }

/-- A fresh system against `wOK`. -/
def sysEmpty : Sys :=
  { tm := [], sm := { fallbackToSession := false }, w := wOK }

/-- A browser environment whose `setItem` always fails (quota). -/
def wWriteFail : World :=
  { primaryAvail := true, localS := none, sessionS := none, setOk := false }

/-- A fresh system against `wWriteFail`. -/
def sysWriteFail : Sys :=
  { tm := [], sm := { fallbackToSession := false }, w := wWriteFail }

/-- A browser environment whose primary store holds unparsable content. -/
def wCorrupt : World :=
  { primaryAvail := true, localS := some RawVal.garbage, sessionS := none
    setOk := true }

/-- A sample active task record. -/
def sampleActive : TaskJson :=
  { id := toL "t1", bookTitle := toL "Book", author := toL ""
    status := Status.active, createdAt := 3, completedAt := none }

/-- A sample completed task record (distinct id). -/
def sampleDone : TaskJson :=
  { id := toL "t2", bookTitle := toL "Read", author := toL ""
    status := Status.completed, createdAt := 1, completedAt := some 2 }

/-- A synchronized system holding `sampleActive` and `sampleDone`. -/
def sysTwo : Sys :=
  { tm := [sampleActive, sampleDone]
    sm := { fallbackToSession := false }
    w := { primaryAvail := true, localS := some (RawVal.json [sampleActive, sampleDone])
           sessionS := none, setOk := true } }

/-- A system whose mirror has a task the store does not have, so adapter
updates and deletes of it fail. -/
def sysStale : Sys :=
  { tm := [sampleActive]
    sm := { fallbackToSession := false }
    w := { primaryAvail := true, localS := some (RawVal.json []),
           sessionS := none, setOk := true } }

/-- A completed Task entity, for the entity-level completion claim. -/
def doneEntity : Task :=
  { id := toL "t2", bookTitle := toL "Read", author := toL ""
    status := Status.completed, createdAt := 1, completedAt := some 5 }

/-- The manager state after the primary store failed its probe once. -/
def stFellBack : SMState :=
  (StorageManager.getStorage { fallbackToSession := false }
    { primaryAvail := false, localS := none, sessionS := none, setOk := true }).2

/-- A later environment: the primary store is available again and its
content differs from the session store's. -/
def wRecovered : World :=
  { primaryAvail := true, localS := some (RawVal.json [sampleActive])
    sessionS := some (RawVal.json []), setOk := true }

/-! Lemmas: TaskValidator.sanitizeInput idempotence development. -/

theorem expand_append (f : Char → Str) (a b : Str) :
    expand f (a ++ b) = expand f a ++ expand f b := by
  induction a with
  | nil => rfl
  | cons c r ih => simp [expand, ih]

theorem replaceChar_append (t : Char) (rep : Str) (a b : Str) :
    replaceChar t rep (a ++ b) = replaceChar t rep a ++ replaceChar t rep b :=
  expand_append _ a b

theorem tvEsc_append (a b : Str) : tvEsc (a ++ b) = tvEsc a ++ tvEsc b := by
  simp [tvEsc, replaceChar_append]

theorem tvEsc_singleton (c : Char) : tvEsc [c] = tvEscChar c := by
  by_cases h1 : c = '<'
  · subst h1; rfl
  · by_cases h2 : c = '>'
    · subst h2; rfl
    · by_cases h3 : c = '"'
      · subst h3; rfl
      · by_cases h4 : c = '\''
        · subst h4; rfl
        · by_cases h5 : c = '/'
          · subst h5; rfl
          · simp [tvEsc, tvEscChar, replaceChar, expand, h1, h2, h3, h4, h5]

theorem tvEsc_eq_expand (u : Str) : tvEsc u = expand tvEscChar u := by
  induction u with
  | nil => rfl
  | cons c r ih =>
    have : (c :: r) = [c] ++ r := rfl
    rw [this, tvEsc_append, expand_append, tvEsc_singleton, ih]
    simp [expand]

theorem sanitizeInput_eq_expand (s : Str) :
    TaskValidator.sanitizeInput s = expand tvEscChar (jsTrim s) := by
  rw [show TaskValidator.sanitizeInput s = tvEsc (jsTrim s) from rfl,
    tvEsc_eq_expand]

theorem mem_tvEscChar_not_special {c d : Char} (h : c ∈ tvEscChar d) :
    isTvSpecial c = false := by
  by_cases h1 : d = '<'
  · subst h1
    exact (by decide : ∀ x ∈ tvEscChar '<', isTvSpecial x = false) c h
  · by_cases h2 : d = '>'
    · subst h2
      exact (by decide : ∀ x ∈ tvEscChar '>', isTvSpecial x = false) c h
    · by_cases h3 : d = '"'
      · subst h3
        exact (by decide : ∀ x ∈ tvEscChar '"', isTvSpecial x = false) c h
      · by_cases h4 : d = '\''
        · subst h4
          exact (by decide : ∀ x ∈ tvEscChar '\'', isTvSpecial x = false) c h
        · by_cases h5 : d = '/'
          · subst h5
            exact (by decide : ∀ x ∈ tvEscChar '/', isTvSpecial x = false) c h
          · simp only [tvEscChar, h1, h2, h3, h4, h5, if_false] at h
            simp only [List.mem_singleton] at h
            subst h
            simp only [isTvSpecial, Bool.or_eq_false_iff, beq_eq_false_iff_ne]
            exact ⟨⟨⟨⟨h1, h2⟩, h3⟩, h4⟩, h5⟩

theorem mem_expand_tvEscChar_not_special {c : Char} {u : Str}
    (h : c ∈ expand tvEscChar u) : isTvSpecial c = false := by
  induction u with
  | nil => simp [expand] at h
  | cons d r ih =>
    simp only [expand, List.mem_append] at h
    rcases h with h | h
    · exact mem_tvEscChar_not_special h
    · exact ih h

theorem tvEscChar_of_not_special {c : Char} (h : isTvSpecial c = false) :
    tvEscChar c = [c] := by
  simp only [isTvSpecial, Bool.or_eq_false_iff, beq_eq_false_iff_ne] at h
  obtain ⟨⟨⟨⟨h1, h2⟩, h3⟩, h4⟩, h5⟩ := h
  simp [tvEscChar, h1, h2, h3, h4, h5]

theorem expand_tvEscChar_of_not_special {u : Str}
    (h : ∀ c ∈ u, isTvSpecial c = false) : expand tvEscChar u = u := by
  induction u with
  | nil => rfl
  | cons c r ih =>
    simp only [expand]
    rw [tvEscChar_of_not_special (h c (List.mem_cons_self c r)),
      ih (fun d hd => h d (List.mem_cons_of_mem c hd))]
    rfl

theorem dropWhile_expand_eq_self (f : Char → Str)
    (hne : ∀ c, f c ≠ [])
    (hh : ∀ c, isJsSpace c = false → ∀ d, (f c).head? = some d → isJsSpace d = false)
    {u : Str} (h : List.dropWhile isJsSpace u = u) :
    List.dropWhile isJsSpace (expand f u) = expand f u := by
  cases u with
  | nil => rfl
  | cons c r =>
    have hc : isJsSpace c = false := by
      by_contra hcs
      have hcs' : isJsSpace c = true := by
        cases hx : isJsSpace c with
        | true => rfl
        | false => exact absurd hx hcs
      rw [List.dropWhile_cons, hcs'] at h
      simp only [if_true] at h
      have hlen := (List.dropWhile_suffix (l := r) isJsSpace).length_le
      rw [h] at hlen
      simp at hlen
    cases hfc : f c with
    | nil => exact absurd hfc (hne c)
    | cons d fr =>
      have hd : isJsSpace d = false := hh c hc d (by rw [hfc]; rfl)
      simp only [expand, hfc, List.cons_append, List.dropWhile_cons, hd]
      simp

theorem expand_reverse (f : Char → Str) (u : Str) :
    (expand f u).reverse = expand (fun c => (f c).reverse) u.reverse := by
  induction u with
  | nil => rfl
  | cons c r ih =>
    simp only [expand, List.reverse_append, List.reverse_cons, ih, expand_append]
    simp [expand]

theorem rdropWhile_expand_eq_self (f : Char → Str)
    (hne : ∀ c, (f c).reverse ≠ [])
    (hl : ∀ c, isJsSpace c = false →
      ∀ d, (f c).reverse.head? = some d → isJsSpace d = false)
    {u : Str} (h : List.rdropWhile isJsSpace u = u) :
    List.rdropWhile isJsSpace (expand f u) = expand f u := by
  have h' : List.dropWhile isJsSpace u.reverse = u.reverse := by
    have := congrArg List.reverse h
    rw [List.rdropWhile, List.reverse_reverse] at this
    calc List.dropWhile isJsSpace u.reverse
        = (List.dropWhile isJsSpace u.reverse).reverse.reverse := by
          rw [List.reverse_reverse]
      _ = u.reverse := by rw [this]; simp
  have key := dropWhile_expand_eq_self (fun c => (f c).reverse) hne hl h'
  rw [← expand_reverse] at key
  rw [List.rdropWhile, key, List.reverse_reverse]

theorem tvEscChar_ne_nil (c : Char) : tvEscChar c ≠ [] := by
  by_cases h1 : c = '<'
  · subst h1; decide
  · by_cases h2 : c = '>'
    · subst h2; decide
    · by_cases h3 : c = '"'
      · subst h3; decide
      · by_cases h4 : c = '\''
        · subst h4; decide
        · by_cases h5 : c = '/'
          · subst h5; decide
          · simp [tvEscChar, h1, h2, h3, h4, h5]

theorem tvEscChar_head_not_space (c : Char) (hc : isJsSpace c = false) :
    ∀ d, (tvEscChar c).head? = some d → isJsSpace d = false := by
  intro d hd
  by_cases h1 : c = '<'
  · subst h1; simp [tvEscChar, toL] at hd; subst hd; decide
  · by_cases h2 : c = '>'
    · subst h2; simp [tvEscChar, toL] at hd; subst hd; decide
    · by_cases h3 : c = '"'
      · subst h3; simp [tvEscChar, toL] at hd; subst hd; decide
      · by_cases h4 : c = '\''
        · subst h4; simp [tvEscChar, toL] at hd; subst hd; decide
        · by_cases h5 : c = '/'
          · subst h5; simp [tvEscChar, toL] at hd; subst hd; decide
          · simp [tvEscChar, h1, h2, h3, h4, h5] at hd
            subst hd; exact hc

theorem tvEscChar_last_not_space (c : Char) (hc : isJsSpace c = false) :
    ∀ d, (tvEscChar c).reverse.head? = some d → isJsSpace d = false := by
  intro d hd
  by_cases h1 : c = '<'
  · subst h1; simp [tvEscChar, toL] at hd; subst hd; decide
  · by_cases h2 : c = '>'
    · subst h2; simp [tvEscChar, toL] at hd; subst hd; decide
    · by_cases h3 : c = '"'
      · subst h3; simp [tvEscChar, toL] at hd; subst hd; decide
      · by_cases h4 : c = '\''
        · subst h4; simp [tvEscChar, toL] at hd; subst hd; decide
        · by_cases h5 : c = '/'
          · subst h5; simp [tvEscChar, toL] at hd; subst hd; decide
          · simp [tvEscChar, h1, h2, h3, h4, h5] at hd
            subst hd; exact hc

theorem dropWhile_jsTrim (s : Str) :
    List.dropWhile isJsSpace (jsTrim s) = jsTrim s := by
  unfold jsTrim
  cases hu : List.rdropWhile isJsSpace (List.dropWhile isJsSpace s) with
  | nil => rfl
  | cons c u' =>
    obtain ⟨t, ht⟩ := List.rdropWhile_prefix isJsSpace (List.dropWhile isJsSpace s)
    rw [hu] at ht
    have hw : List.dropWhile isJsSpace s = c :: (u' ++ t) := by
      rw [← ht]; rfl
    have hlen : 0 < (List.dropWhile isJsSpace s).length := by rw [hw]; simp
    have hc := List.dropWhile_get_zero_not isJsSpace s hlen
    have hcc : (List.dropWhile isJsSpace s).get ⟨0, hlen⟩ = c := by
      rw [List.get_eq_getElem]
      simp [hw]
    rw [hcc] at hc
    have hcf : isJsSpace c = false := by
      cases hx : isJsSpace c with
      | true => exact absurd hx hc
      | false => rfl
    rw [List.dropWhile_cons, hcf]
    simp

theorem rdropWhile_jsTrim (s : Str) :
    List.rdropWhile isJsSpace (jsTrim s) = jsTrim s := by
  unfold jsTrim
  exact List.rdropWhile_idempotent _ _

theorem jsTrim_eq_self {u : Str} (h1 : List.dropWhile isJsSpace u = u)
    (h2 : List.rdropWhile isJsSpace u = u) : jsTrim u = u := by
  unfold jsTrim
  rw [h1, h2]

/-- Full character-level form of TaskValidator.sanitizeInput. -/
theorem tv_sanitize_fixed (s : Str) :
    jsTrim (TaskValidator.sanitizeInput s) = TaskValidator.sanitizeInput s ∧
    (∀ c ∈ TaskValidator.sanitizeInput s, isTvSpecial c = false) := by
  rw [sanitizeInput_eq_expand]
  constructor
  · exact jsTrim_eq_self
      (dropWhile_expand_eq_self tvEscChar tvEscChar_ne_nil
        tvEscChar_head_not_space (dropWhile_jsTrim s))
      (rdropWhile_expand_eq_self tvEscChar
        (fun c => by simpa using tvEscChar_ne_nil c)
        tvEscChar_last_not_space (rdropWhile_jsTrim s))
  · intro c hc
    exact mem_expand_tvEscChar_not_special hc

theorem tv_sanitize_idem (s : Str) :
    TaskValidator.sanitizeInput (TaskValidator.sanitizeInput s) =
      TaskValidator.sanitizeInput s := by
  obtain ⟨htrim, hspec⟩ := tv_sanitize_fixed s
  rw [sanitizeInput_eq_expand (TaskValidator.sanitizeInput s), htrim]
  exact expand_tvEscChar_of_not_special hspec

/-! Lemmas about the JS list helpers. -/

theorem jsFindIndex_lt_length {α : Type} {p : α → Bool} :
    ∀ {l : List α} {i : Nat}, jsFindIndex p l = some i → i < l.length := by
  intro l
  induction l with
  | nil => intro i h; simp [jsFindIndex] at h
  | cons a t ih =>
    intro i h
    cases hpa : p a with
    | true =>
      simp [jsFindIndex, hpa] at h
      subst h; simp
    | false =>
      simp only [jsFindIndex, hpa, Bool.false_eq_true, if_false] at h
      cases hft : jsFindIndex p t with
      | none => rw [hft] at h; simp at h
      | some j =>
        rw [hft] at h
        simp only [Option.map_some', Option.some.injEq] at h
        subst h
        have := ih hft
        simp only [List.length_cons]
        omega

theorem jsFindIndex_getAt {α : Type} [Inhabited α] {p : α → Bool} :
    ∀ {l : List α} {i : Nat}, jsFindIndex p l = some i → p (getAt l i) = true := by
  intro l
  induction l with
  | nil => intro i h; simp [jsFindIndex] at h
  | cons a t ih =>
    intro i h
    cases hpa : p a with
    | true =>
      simp [jsFindIndex, hpa] at h
      subst h; simpa [getAt] using hpa
    | false =>
      simp only [jsFindIndex, hpa, Bool.false_eq_true, if_false] at h
      cases hft : jsFindIndex p t with
      | none => rw [hft] at h; simp at h
      | some j =>
        rw [hft] at h
        simp only [Option.map_some', Option.some.injEq] at h
        subst h
        simpa [getAt] using ih hft

theorem jsFindIndex_eq_none {α : Type} {p : α → Bool} :
    ∀ {l : List α}, (∀ x ∈ l, p x = false) → jsFindIndex p l = none := by
  intro l
  induction l with
  | nil => intro _; rfl
  | cons a t ih =>
    intro h
    have ha := h a (List.mem_cons_self a t)
    simp [jsFindIndex, ha, ih (fun x hx => h x (List.mem_cons_of_mem a hx))]

theorem setAt_getAt_self {α : Type} [Inhabited α] :
    ∀ (l : List α) (i : Nat), i < l.length → setAt l i (getAt l i) = l := by
  intro l
  induction l with
  | nil => intro i h; simp at h
  | cons a t ih =>
    intro i h
    cases i with
    | zero => simp [setAt, getAt]
    | succ j =>
      simp only [List.length_cons, Nat.succ_lt_succ_iff] at h
      simpa [setAt, getAt] using ih j h

theorem getAt_setAt_self {α : Type} [Inhabited α] :
    ∀ (l : List α) (i : Nat) (x : α), i < l.length → getAt (setAt l i x) i = x := by
  intro l
  induction l with
  | nil => intro i x h; simp at h
  | cons a t ih =>
    intro i x h
    cases i with
    | zero => simp [setAt, getAt]
    | succ j =>
      simp only [List.length_cons, Nat.succ_lt_succ_iff] at h
      simpa [setAt, getAt] using ih j x h

theorem setAt_setAt {α : Type} :
    ∀ (l : List α) (i : Nat) (x y : α), setAt (setAt l i x) i y = setAt l i y := by
  intro l
  induction l with
  | nil => intro i x y; simp [setAt]
  | cons a t ih =>
    intro i x y
    cases i with
    | zero => simp [setAt]
    | succ j => simp [setAt, ih]

theorem spliceInsert_spliceRemove {α : Type} [Inhabited α] :
    ∀ (l : List α) (i : Nat), i < l.length →
      spliceInsert (spliceRemove l i) i (getAt l i) = l := by
  intro l
  induction l with
  | nil => intro i h; simp at h
  | cons a t ih =>
    intro i h
    cases i with
    | zero => simp [spliceRemove, spliceInsert, getAt]
    | succ j =>
      simp only [List.length_cons, Nat.succ_lt_succ_iff] at h
      simpa [spliceRemove, spliceInsert, getAt] using ih j h

theorem jsFindIndex_setAt_same {α : Type} {p : α → Bool} :
    ∀ {l : List α} {i : Nat} {x : α}, jsFindIndex p l = some i → p x = true →
      jsFindIndex p (setAt l i x) = some i := by
  intro l
  induction l with
  | nil => intro i x h _; simp [jsFindIndex] at h
  | cons a t ih =>
    intro i x h hx
    cases hpa : p a with
    | true =>
      simp [jsFindIndex, hpa] at h
      subst h
      simp [setAt, jsFindIndex, hx]
    | false =>
      simp only [jsFindIndex, hpa, Bool.false_eq_true, if_false] at h
      cases hft : jsFindIndex p t with
      | none => rw [hft] at h; simp at h
      | some j =>
        rw [hft] at h
        simp only [Option.map_some', Option.some.injEq] at h
        subst h
        simp [setAt, jsFindIndex, hpa, ih hft hx]

theorem filter_not_eq_spliceRemove {α : Type} {p : α → Bool} :
    ∀ {l : List α} {i : Nat}, jsFindIndex p l = some i →
      (l.filter p).length ≤ 1 →
      l.filter (fun x => !(p x)) = spliceRemove l i := by
  intro l
  induction l with
  | nil => intro i h _; simp [jsFindIndex] at h
  | cons a t ih =>
    intro i h hcnt
    cases hpa : p a with
    | true =>
      simp [jsFindIndex, hpa] at h
      subst h
      simp only [List.filter_cons, hpa, if_true] at hcnt
      have hnil : t.filter p = [] := by
        cases hx : t.filter p with
        | nil => rfl
        | cons b u => rw [hx] at hcnt; simp at hcnt
      have hall : ∀ x ∈ t, p x = false := by
        intro x hx
        cases hv : p x with
        | false => rfl
        | true =>
          have : x ∈ t.filter p := List.mem_filter.mpr ⟨hx, hv⟩
          rw [hnil] at this
          simp at this
      simp only [List.filter_cons, hpa, Bool.not_true, Bool.false_eq_true,
        if_false, spliceRemove]
      exact List.filter_eq_self.mpr (fun x hx => by simp [hall x hx])
    | false =>
      simp only [jsFindIndex, hpa, Bool.false_eq_true, if_false] at h
      cases hft : jsFindIndex p t with
      | none => rw [hft] at h; simp at h
      | some j =>
        rw [hft] at h
        simp only [Option.map_some', Option.some.injEq] at h
        subst h
        simp only [List.filter_cons, hpa, Bool.false_eq_true, if_false] at hcnt
        simp only [List.filter_cons, hpa, Bool.not_false, if_true, spliceRemove]
        rw [ih hft hcnt]

theorem filter_not_length_ne {α : Type} {p : α → Bool} :
    ∀ {l : List α} {i : Nat}, jsFindIndex p l = some i →
      (l.filter (fun x => !(p x))).length ≠ l.length := by
  intro l
  induction l with
  | nil => intro i h; simp [jsFindIndex] at h
  | cons a t ih =>
    intro i h
    cases hpa : p a with
    | true =>
      simp only [List.filter_cons, hpa, Bool.not_true, Bool.false_eq_true, if_false]
      have := List.length_filter_le (fun x => !(p x)) t
      simp only [List.length_cons]
      omega
    | false =>
      simp only [jsFindIndex, hpa, Bool.false_eq_true, if_false] at h
      cases hft : jsFindIndex p t with
      | none => rw [hft] at h; simp at h
      | some j =>
        rw [hft] at h
        simp only [List.filter_cons, hpa, Bool.not_false, if_true, List.length_cons]
        have := ih hft
        omega

/-! Lemmas about the StorageManager embedding. -/

theorem reviveDates_eq (t : TaskJson) : StorageManager.reviveDates t = t := by
  obtain ⟨i, b, a, st, ca, co⟩ := t
  cases co <;> rfl

theorem map_reviveDates (l : List TaskJson) :
    l.map StorageManager.reviveDates = l := by
  induction l with
  | nil => rfl
  | cons a t ih => simp [reviveDates_eq, ih]

theorem loadTasks_fst (st : SMState) (w : World) :
    (StorageManager.loadTasks st w).1 = loadedView w := by
  cases hp : w.primaryAvail with
  | true =>
    simp only [StorageManager.loadTasks, loadedView, StorageManager.getStorage,
      StorageManager.isStorageAvailable, hp, if_true]
    cases hr : StorageManager.readKey true w with
    | none => simp [hr]
    | some raw => cases raw <;> simp [hr, StorageManager.parseTasks]
  | false =>
    simp only [StorageManager.loadTasks, loadedView, StorageManager.getStorage,
      StorageManager.isStorageAvailable, hp, Bool.false_eq_true, if_false]

theorem saveTasks_ok (st : SMState) (w : World) (ts : List TaskJson)
    (h : w.setOk = true) :
    (StorageManager.saveTasks st w ts).1 = true ∧
    loadedView (StorageManager.saveTasks st w ts).2.2 = ts := by
  cases hp : w.primaryAvail with
  | true =>
    simp [StorageManager.saveTasks, StorageManager.getStorage,
      StorageManager.isStorageAvailable, loadedView, StorageManager.loadTasks,
      StorageManager.readKey, StorageManager.writeKey, StorageManager.parseTasks,
      h, hp, map_reviveDates]
  | false =>
    simp [StorageManager.saveTasks, StorageManager.getStorage,
      StorageManager.isStorageAvailable, loadedView, StorageManager.loadTasks,
      StorageManager.readKey, StorageManager.writeKey, StorageManager.parseTasks,
      h, hp, map_reviveDates]

theorem saveTasks_fail (st : SMState) (w : World) (ts : List TaskJson)
    (h : w.setOk = false) :
    (StorageManager.saveTasks st w ts).1 = false ∧
    (StorageManager.saveTasks st w ts).2.2 = w := by
  cases hp : w.primaryAvail with
  | true =>
    simp [StorageManager.saveTasks, StorageManager.getStorage,
      StorageManager.isStorageAvailable, h, hp]
  | false =>
    simp [StorageManager.saveTasks, StorageManager.getStorage,
      StorageManager.isStorageAvailable, h, hp]

/-! Lemmas about TaskManager.completeTask and TaskManager.deleteTask. -/

theorem completedSnapshot_spec (d : TaskJson) (now : Nat) :
    (completedSnapshot d now).id = d.id ∧
    (completedSnapshot d now).bookTitle = d.bookTitle ∧
    (completedSnapshot d now).author = d.author ∧
    (completedSnapshot d now).status = Status.completed ∧
    (completedSnapshot d now).createdAt = d.createdAt ∧
    (completedSnapshot d now).completedAt = some now := by
  obtain ⟨i, b, a, st, ca, co⟩ := d
  cases co <;>
    simp [completedSnapshot, Task.fromJSON, Task.toJSON, Task.construct,
      Task.complete, newDate]

theorem completeTask_already {sys : Sys} {taskId : Str} {now : Nat} {i : Nat}
    (hfind : jsFindIndex (fun t => decide (t.id = taskId)) sys.tm = some i)
    (hdone : (getAt sys.tm i).status = Status.completed) :
    TaskManager.completeTask sys taskId now = (none, sys) := by
  simp [TaskManager.completeTask, hfind, hdone]

theorem completeTask_success {sys : Sys} {taskId : Str} {now : Nat} {i : Nat}
    (hfind : jsFindIndex (fun t => decide (t.id = taskId)) sys.tm = some i)
    (hact : ¬ (getAt sys.tm i).status = Status.completed)
    (hsave : (StorageManager.updateTask sys.sm sys.w taskId
      { status := some Status.completed, completedAt := some (some now) }).1 = true) :
    (TaskManager.completeTask sys taskId now).1 =
      some (completedSnapshot (getAt sys.tm i) now) ∧
    (TaskManager.completeTask sys taskId now).2.tm =
      setAt sys.tm i (completedSnapshot (getAt sys.tm i) now) ∧
    (TaskManager.completeTask sys taskId now).2.w =
      (StorageManager.updateTask sys.sm sys.w taskId
        { status := some Status.completed, completedAt := some (some now) }).2.2 := by
  have hproj : (Task.toJSON (Task.complete (Task.fromJSON (getAt sys.tm i) [] 0) now)).completedAt
      = some now := rfl
  simp only [TaskManager.completeTask, hfind, hproj, hact, if_false]
  rcases hu : StorageManager.updateTask sys.sm sys.w taskId
    { status := some Status.completed, completedAt := some (some now) } with ⟨saved, sm', w'⟩
  rw [hu] at hsave
  simp only at hsave
  subst hsave
  simp [completedSnapshot]

theorem completeTask_storage_fail {sys : Sys} {taskId : Str} {now : Nat} {i : Nat}
    (hfind : jsFindIndex (fun t => decide (t.id = taskId)) sys.tm = some i)
    (hact : ¬ (getAt sys.tm i).status = Status.completed)
    (hsave : (StorageManager.updateTask sys.sm sys.w taskId
      { status := some Status.completed, completedAt := some (some now) }).1 = false) :
    (TaskManager.completeTask sys taskId now).1 = none ∧
    (TaskManager.completeTask sys taskId now).2.tm = sys.tm := by
  have hproj : (Task.toJSON (Task.complete (Task.fromJSON (getAt sys.tm i) [] 0) now)).completedAt
      = some now := rfl
  simp only [TaskManager.completeTask, hfind, hproj, hact, if_false]
  rcases hu : StorageManager.updateTask sys.sm sys.w taskId
    { status := some Status.completed, completedAt := some (some now) } with ⟨saved, sm', w'⟩
  rw [hu] at hsave
  simp only at hsave
  subst hsave
  simp only [Bool.false_eq_true, if_false]
  refine ⟨by simp, ?_⟩
  simp only [setAt_setAt]
  exact setAt_getAt_self sys.tm i (jsFindIndex_lt_length hfind)

theorem deleteTask_storage_fail {sys : Sys} {taskId : Str} {i : Nat}
    (hfind : jsFindIndex (fun t => decide (t.id = taskId)) sys.tm = some i)
    (hdel : (StorageManager.deleteTask sys.sm sys.w taskId).1 = false) :
    (TaskManager.deleteTask sys taskId).1 = false ∧
    (TaskManager.deleteTask sys taskId).2.tm = sys.tm := by
  simp only [TaskManager.deleteTask, hfind]
  rcases hu : StorageManager.deleteTask sys.sm sys.w taskId with ⟨deleted, sm', w'⟩
  rw [hu] at hdel
  simp only at hdel
  subst hdel
  simp only [Bool.false_eq_true, if_false]
  exact ⟨by simp, spliceInsert_spliceRemove sys.tm i (jsFindIndex_lt_length hfind)⟩

theorem deleteTask_success {sys : Sys} {taskId : Str} {i : Nat}
    (hfind : jsFindIndex (fun t => decide (t.id = taskId)) sys.tm = some i)
    (hdel : (StorageManager.deleteTask sys.sm sys.w taskId).1 = true) :
    (TaskManager.deleteTask sys taskId).1 = true ∧
    (TaskManager.deleteTask sys taskId).2.tm = spliceRemove sys.tm i ∧
    (TaskManager.deleteTask sys taskId).2.w =
      (StorageManager.deleteTask sys.sm sys.w taskId).2.2 := by
  simp only [TaskManager.deleteTask, hfind]
  rcases hu : StorageManager.deleteTask sys.sm sys.w taskId with ⟨deleted, sm', w'⟩
  rw [hu] at hdel
  simp only at hdel
  subst hdel
  simp

/-! Claim theorems. -/

/-- C2 counterexample: the claim "for every string s,
sanitizeInput(sanitizeInput(s)) == sanitizeInput(s)" is false for
InputValidator.sanitizeInput at the one-character input consisting of an
ampersand: the first pass produces the entity for the ampersand and the
second pass escapes that entity's own ampersand again. -/
theorem c2_counterexample :
    InputValidator.sanitizeInput (InputValidator.sanitizeInput (toL "&")) ≠
      InputValidator.sanitizeInput (toL "&") := by
  decide

/-- C2 amended: the sanitizer the task registry uses when creating tasks,
TaskValidator.sanitizeInput, is idempotent: sanitizing an
already-sanitized string yields the same string. -/
theorem c2_amended (s : Str) :
    TaskValidator.sanitizeInput (TaskValidator.sanitizeInput s) =
      TaskValidator.sanitizeInput s :=
  tv_sanitize_idem s

/-- C3 counterexample: on the input consisting of a, tab, apostrophe, b
the pipeline in the claimed order (trim, collapse whitespace, strip
control, escape ampersand/angle-brackets/quotes, remove patterns) yields
a, space, apostrophe-entity, b — while the implemented sanitizeInput
yields a, apostrophe, b: the tab is stripped before collapsing ever sees
it, and quotes are not escaped. -/
theorem c3_counterexample :
    InputValidator.sanitizeInput (toL "a\t'b") = toL "a'b" ∧
    claimedPipeline (toL "a\t'b") = toL "a &#x27;b" ∧
    InputValidator.sanitizeInput (toL "a\t'b") ≠ claimedPipeline (toL "a\t'b") := by
  refine ⟨by decide, by decide, by decide⟩

/-- C3 amended: the sanitization pipeline applies, in this order: trim,
then HTML-escape ampersand, angle brackets and no-break space (DOM
text-node escaping — quotes are not escaped), then strip ASCII control
characters, then collapse whitespace runs, then remove the recognized
script/markup patterns. -/
theorem c3_amended (s : Str) : InputValidator.sanitizeInput s = actualPipeline s := rfl

/-- C5 counterexample: an adapter that fell back (its fallbackToSession
flag is set) still reads the primary store on the very next operation
once the availability probe succeeds again: loadTasks returns the primary
store's record, not the session store's empty array. -/
theorem c5_counterexample :
    stFellBack.fallbackToSession = true ∧
    (StorageManager.loadTasks stFellBack wRecovered).1 = [sampleActive] ∧
    wRecovered.sessionS = some (RawVal.json []) := by
  refine ⟨by decide, by decide, by decide⟩

/-- C5 amended: store selection is re-evaluated on every call: getStorage
uses the primary store exactly when the availability probe succeeds at
that moment, regardless of any earlier fallback; the fallbackToSession
flag, once set, is never reset (it only feeds getStorageInfo). -/
theorem c5_amended (st : SMState) (w : World) :
    (StorageManager.getStorage st w).1 = StorageManager.isStorageAvailable w ∧
    (st.fallbackToSession = true →
      (StorageManager.getStorage st w).2.fallbackToSession = true) := by
  unfold StorageManager.getStorage
  cases hp : StorageManager.isStorageAvailable w <;> simp [hp]

/-- C5 amended, witness: concrete instance at a fallen-back state and a
recovered environment. -/
theorem c5_amended_witness :
    (StorageManager.getStorage { fallbackToSession := true } wRecovered).1 =
      StorageManager.isStorageAvailable wRecovered ∧
    (StorageManager.getStorage { fallbackToSession := true } wRecovered).2.fallbackToSession =
      true :=
  ⟨(c5_amended { fallbackToSession := true } wRecovered).1,
    (c5_amended { fallbackToSession := true } wRecovered).2 rfl⟩

/-- C8: deserializing the serialized form of any Task entity,
Task.fromJSON(t.toJSON()), yields an entity with the same id, bookTitle,
author, status, createdAt and completedAt, whatever fresh id and clock
value the intermediate constructor call consumes. -/
theorem c8_roundtrip (t : Task) (freshId : Str) (now : Nat) :
    (Task.fromJSON (Task.toJSON t) freshId now).id = t.id ∧
    (Task.fromJSON (Task.toJSON t) freshId now).bookTitle = t.bookTitle ∧
    (Task.fromJSON (Task.toJSON t) freshId now).author = t.author ∧
    (Task.fromJSON (Task.toJSON t) freshId now).status = t.status ∧
    (Task.fromJSON (Task.toJSON t) freshId now).createdAt = t.createdAt ∧
    (Task.fromJSON (Task.toJSON t) freshId now).completedAt = t.completedAt := by
  obtain ⟨i, b, a, st, ca, co⟩ := t
  cases co <;> simp [Task.fromJSON, Task.toJSON, Task.construct, newDate]

/-- C9: the claim that containsXSS is deterministic across repeated calls
is false on the code and true in intent: on a fresh InputValidator,
containsXSS("javascript:") returns true, and the immediately repeated
identical call returns false, because the g-flagged pattern's lastIndex
persists across test() calls; the function's contract (return whether an
XSS pattern is contained) makes the second answer wrong. -/
theorem c9_xss_test_stateful :
    (InputValidator.containsXSS InputValidator.freshXssState (toL "javascript:")).1 =
      true ∧
    (InputValidator.containsXSS
        (InputValidator.containsXSS InputValidator.freshXssState (toL "javascript:")).2
        (toL "javascript:")).1 = false := by
  refine ⟨by decide, by decide⟩

/-- C4 counterexample: the entity's complete() is unguarded: called on an
already-completed task it signals no failure and does mutate the task,
overwriting completedAt with the new clock value. -/
theorem c4_counterexample :
    doneEntity.status = Status.completed ∧
    (Task.complete doneEntity 7).completedAt = some 7 ∧
    (Task.complete doneEntity 7).completedAt ≠ doneEntity.completedAt := by
  refine ⟨by decide, by decide, by decide⟩

/-- C4 amended: the ALREADY_COMPLETED guard lives in the registry, not in
the entity: TaskManager.completeTask on a task whose mirrored status is
already completed returns null and leaves everything unchanged; on an
active task (with the adapter update succeeding) it returns a snapshot
with status completed and completedAt set to the current time, after
which any repeated completion attempt for the same id returns null and
changes nothing. -/
theorem c4_amended :
    (∀ (sys : Sys) (taskId : Str) (now : Nat) (i : Nat),
      jsFindIndex (fun t => decide (t.id = taskId)) sys.tm = some i →
      (getAt sys.tm i).status = Status.completed →
      TaskManager.completeTask sys taskId now = (none, sys)) ∧
    (∀ (sys : Sys) (taskId : Str) (now : Nat) (i : Nat),
      jsFindIndex (fun t => decide (t.id = taskId)) sys.tm = some i →
      ¬ (getAt sys.tm i).status = Status.completed →
      (StorageManager.updateTask sys.sm sys.w taskId
        { status := some Status.completed, completedAt := some (some now) }).1 = true →
      (TaskManager.completeTask sys taskId now).1 =
        some (completedSnapshot (getAt sys.tm i) now) ∧
      (completedSnapshot (getAt sys.tm i) now).status = Status.completed ∧
      (completedSnapshot (getAt sys.tm i) now).completedAt = some now ∧
      (∀ now2 : Nat,
        TaskManager.completeTask (TaskManager.completeTask sys taskId now).2 taskId now2 =
          (none, (TaskManager.completeTask sys taskId now).2))) := by
  constructor
  · intro sys taskId now i hfind hdone
    exact completeTask_already hfind hdone
  · intro sys taskId now i hfind hact hsave
    obtain ⟨h1, h2, h3⟩ := completeTask_success hfind hact hsave
    have hspec := completedSnapshot_spec (getAt sys.tm i) now
    refine ⟨h1, hspec.2.2.2.1, hspec.2.2.2.2.2, ?_⟩
    intro now2
    have hlen : i < sys.tm.length := jsFindIndex_lt_length hfind
    have hid : decide ((getAt sys.tm i).id = taskId) = true := jsFindIndex_getAt hfind
    have hpu : decide ((completedSnapshot (getAt sys.tm i) now).id = taskId) = true := by
      rw [hspec.1]; exact hid
    have hfind2 : jsFindIndex (fun t => decide (t.id = taskId))
        (TaskManager.completeTask sys taskId now).2.tm = some i := by
      rw [h2]; exact jsFindIndex_setAt_same hfind hpu
    have hdone2 : (getAt (TaskManager.completeTask sys taskId now).2.tm i).status =
        Status.completed := by
      rw [h2, getAt_setAt_self sys.tm i _ hlen]
      exact hspec.2.2.2.1
    exact completeTask_already hfind2 hdone2

/-- C4 amended, witness: in the synchronized two-task system, completing
the already-completed task t2 is rejected with no state change, and
completing the active task t1 yields a completed snapshot with
completedAt = 9 whose repeat attempt at time 11 is rejected. -/
theorem c4_amended_witness :
    TaskManager.completeTask sysTwo (toL "t2") 9 = (none, sysTwo) ∧
    ((TaskManager.completeTask sysTwo (toL "t1") 9).1 =
        some (completedSnapshot (getAt sysTwo.tm 0) 9) ∧
      (completedSnapshot (getAt sysTwo.tm 0) 9).status = Status.completed ∧
      (completedSnapshot (getAt sysTwo.tm 0) 9).completedAt = some 9 ∧
      TaskManager.completeTask (TaskManager.completeTask sysTwo (toL "t1") 9).2
          (toL "t1") 11 =
        (none, (TaskManager.completeTask sysTwo (toL "t1") 9).2)) := by
  constructor
  · exact c4_amended.1 sysTwo (toL "t2") 9 1 (by decide) (by decide)
  · have h := c4_amended.2 sysTwo (toL "t1") 9 0 (by decide) (by decide) (by decide)
    exact ⟨h.1, h.2.1, h.2.2.1, h.2.2.2 11⟩

/-- C10: completeTask and deleteTask are atomic with respect to the
mirror: when the adapter's update (resp. delete) step fails, the
registry's rollback leaves the mirror exactly as before the call, and the
call returns null (resp. false). -/
theorem c10_rollback :
    (∀ (sys : Sys) (taskId : Str) (now : Nat) (i : Nat),
      jsFindIndex (fun t => decide (t.id = taskId)) sys.tm = some i →
      ¬ (getAt sys.tm i).status = Status.completed →
      (StorageManager.updateTask sys.sm sys.w taskId
        { status := some Status.completed, completedAt := some (some now) }).1 = false →
      (TaskManager.completeTask sys taskId now).1 = none ∧
      (TaskManager.completeTask sys taskId now).2.tm = sys.tm) ∧
    (∀ (sys : Sys) (taskId : Str) (i : Nat),
      jsFindIndex (fun t => decide (t.id = taskId)) sys.tm = some i →
      (StorageManager.deleteTask sys.sm sys.w taskId).1 = false →
      (TaskManager.deleteTask sys taskId).1 = false ∧
      (TaskManager.deleteTask sys taskId).2.tm = sys.tm) := by
  constructor
  · intro sys taskId now i hfind hact hfail
    exact completeTask_storage_fail hfind hact hfail
  · intro sys taskId i hfind hfail
    exact deleteTask_storage_fail hfind hfail

/-- C10 witness: against a store that lacks the mirrored task t1, both the
completion update and the deletion fail in the adapter, and the registry
returns null / false with the mirror restored. -/
theorem c10_rollback_witness :
    ((TaskManager.completeTask sysStale (toL "t1") 9).1 = none ∧
      (TaskManager.completeTask sysStale (toL "t1") 9).2.tm = sysStale.tm) ∧
    ((TaskManager.deleteTask sysStale (toL "t1")).1 = false ∧
      (TaskManager.deleteTask sysStale (toL "t1")).2.tm = sysStale.tm) :=
  ⟨c10_rollback.1 sysStale (toL "t1") 9 0 (by decide) (by decide) (by decide),
    c10_rollback.2 sysStale (toL "t1") 0 (by decide) (by decide)⟩

/-- C7: loadAll returns the empty collection, and never signals an error,
whenever the logical key is absent from the currently selected store or
its content is unparsable; on parsable content it returns the records
with their timestamp fields revived — and in this model revival preserves
every record exactly. The function is total, so no error can escape. -/
theorem c7_loadAll (st : SMState) (w : World) :
    (StorageManager.readKey (StorageManager.getStorage st w).1 w = none →
      (StorageManager.loadTasks st w).1 = []) ∧
    (∀ raw, StorageManager.readKey (StorageManager.getStorage st w).1 w = some raw →
      StorageManager.parseTasks raw = none →
      (StorageManager.loadTasks st w).1 = []) ∧
    (∀ l, StorageManager.readKey (StorageManager.getStorage st w).1 w =
        some (RawVal.json l) →
      (StorageManager.loadTasks st w).1 = l.map StorageManager.reviveDates ∧
      l.map StorageManager.reviveDates = l) := by
  rcases hg : StorageManager.getStorage st w with ⟨loc, st2⟩
  refine ⟨?_, ?_, ?_⟩
  · intro h
    simp [StorageManager.loadTasks, hg, h]
  · intro raw h hp
    simp [StorageManager.loadTasks, hg, h, hp]
  · intro l h
    simp [StorageManager.loadTasks, hg, h, StorageManager.parseTasks, map_reviveDates]

/-- C7 witness: an absent key, corrupt content and a two-record store. -/
theorem c7_loadAll_witness :
    (StorageManager.loadTasks { fallbackToSession := false } wOK).1 = [] ∧
    (StorageManager.loadTasks { fallbackToSession := false } wCorrupt).1 = [] ∧
    ((StorageManager.loadTasks { fallbackToSession := false } sysTwo.w).1 =
        [sampleActive, sampleDone].map StorageManager.reviveDates ∧
      [sampleActive, sampleDone].map StorageManager.reviveDates =
        [sampleActive, sampleDone]) :=
  ⟨(c7_loadAll { fallbackToSession := false } wOK).1 (by decide),
    (c7_loadAll { fallbackToSession := false } wCorrupt).2.1 RawVal.garbage
      (by decide) (by decide),
    (c7_loadAll { fallbackToSession := false } sysTwo.w).2.2
      [sampleActive, sampleDone] (by decide)⟩

theorem saveTask_fail_of_setOk (st : SMState) {w : World} (task : TaskJson)
    (h : w.setOk = false) :
    (StorageManager.saveTask st w task).1 = false ∧
    (StorageManager.saveTask st w task).2.2 = w := by
  unfold StorageManager.saveTask
  cases hval : StorageManager.validateTaskData task with
  | false => simp [hval]
  | true =>
    simp only [hval]
    rcases hl : StorageManager.loadTasks st w with ⟨tasks, st1⟩
    simp only [hl]
    exact saveTasks_fail st1 w _ h

/-- C6: if the adapter's saveTask fails during addTask (here: every
setItem write fails), addTask returns null and both the in-memory mirror
and the stores are exactly as before the call — no orphan record. -/
theorem c6_save_failure_isolation (sys : Sys) (bookTitle author freshId : Str)
    (now : Nat)
    (hfresh : ∀ t ∈ sys.tm, t.id ≠ freshId)
    (hfail : sys.w.setOk = false) :
    (TaskManager.addTask sys bookTitle author freshId now).1 = none ∧
    (TaskManager.addTask sys bookTitle author freshId now).2.tm = sys.tm ∧
    (TaskManager.addTask sys bookTitle author freshId now).2.w = sys.w := by
  unfold TaskManager.addTask
  cases hv : (TaskValidator.prepareTaskData bookTitle author).validation.isValid with
  | false => simp [hv]
  | true =>
    simp only [hv, Bool.true_eq_false, if_false]
    rcases hs : StorageManager.saveTask sys.sm sys.w
      (Task.toJSON (Task.construct (TaskValidator.prepareTaskData bookTitle author).data.bookTitle
        (TaskValidator.prepareTaskData bookTitle author).data.author freshId now)) with
      ⟨saved, sm', w'⟩
    have hsf := saveTask_fail_of_setOk sys.sm
      (Task.toJSON (Task.construct
        (TaskValidator.prepareTaskData bookTitle author).data.bookTitle
        (TaskValidator.prepareTaskData bookTitle author).data.author freshId now)) hfail
    rw [hs] at hsf
    simp only at hsf
    obtain ⟨hsaved, hw⟩ := hsf
    subst hsaved
    simp only [hs, Bool.false_eq_true, if_false]
    refine ⟨by simp, ?_, hw⟩
    rw [List.filter_append]
    have h1 : sys.tm.filter
        (fun t => decide (t.id ≠ (Task.construct
          (TaskValidator.prepareTaskData bookTitle author).data.bookTitle
          (TaskValidator.prepareTaskData bookTitle author).data.author freshId now).id)) =
        sys.tm :=
      List.filter_eq_self.mpr (fun x hx => by
        simp [Task.construct, hfresh x hx])
    have h2 : [Task.toJSON (Task.construct
        (TaskValidator.prepareTaskData bookTitle author).data.bookTitle
        (TaskValidator.prepareTaskData bookTitle author).data.author freshId now)].filter
        (fun t => decide (t.id ≠ (Task.construct
          (TaskValidator.prepareTaskData bookTitle author).data.bookTitle
          (TaskValidator.prepareTaskData bookTitle author).data.author freshId now).id)) =
        [] := by
      simp [Task.toJSON, Task.construct]
    rw [h1, h2, List.append_nil]

/-- C6 witness: against an empty mirror and a failing store, addTask of a
valid title returns null with the mirror and the stores untouched. -/
theorem c6_save_failure_isolation_witness :
    (TaskManager.addTask sysWriteFail (toL "Book") (toL "") (toL "t1") 5).1 = none ∧
    (TaskManager.addTask sysWriteFail (toL "Book") (toL "") (toL "t1") 5).2.tm =
      sysWriteFail.tm ∧
    (TaskManager.addTask sysWriteFail (toL "Book") (toL "") (toL "t1") 5).2.w =
      sysWriteFail.w :=
  c6_save_failure_isolation sysWriteFail (toL "Book") (toL "") (toL "t1") 5
    (by simp [sysWriteFail]) (by decide)

/-! Lemmas for the mirror-versus-store synchronization claim. -/

theorem validateTaskData_parts {d : TaskValidator.TaskFields}
    (h : (TaskValidator.validateTaskData d).isValid = true) :
    (TaskValidator.validateBookTitle d.bookTitle).errors = [] ∧
    (TaskValidator.validateAuthor d.author).errors = [] := by
  unfold TaskValidator.validateTaskData at h
  simp only [List.isEmpty_eq_true, List.append_eq_nil] at h
  exact h

theorem validateBookTitle_parts {t : Str}
    (h : (TaskValidator.validateBookTitle t).errors = []) :
    t ≠ [] ∧ jsTrim t ≠ [] ∧ t.length ≤ 100 := by
  unfold TaskValidator.validateBookTitle at h
  by_cases h0 : t = []
  · simp [h0] at h
  · simp only [h0, if_false] at h
    rw [List.append_eq_nil] at h
    refine ⟨h0, ?_, ?_⟩
    · by_cases h1 : jsTrim t = []
      · simp [h1] at h
      · exact h1
    · by_cases h2 : t.length > 100
      · simp [h2] at h
      · omega

theorem validateAuthor_parts {a : Str}
    (h : (TaskValidator.validateAuthor a).errors = []) :
    a = [] ∨ a.length ≤ 50 := by
  unfold TaskValidator.validateAuthor at h
  by_cases h0 : a ≠ [] ∧ a.length > 50
  · simp [h0] at h
  · rcases Classical.em (a = []) with h1 | h1
    · exact Or.inl h1
    · right
      by_cases h2 : a.length ≤ 50
      · exact h2
      · exact absurd ⟨h1, by omega⟩ h0

theorem storage_validate_of_prepared (now : Nat) {bt au freshId : Str}
    (hvalid : (TaskValidator.prepareTaskData bt au).validation.isValid = true)
    (hid : freshId ≠ []) :
    StorageManager.validateTaskData (Task.toJSON (Task.construct
      (TaskValidator.prepareTaskData bt au).data.bookTitle
      (TaskValidator.prepareTaskData bt au).data.author freshId now)) = true := by
  have hv : (TaskValidator.validateTaskData (TaskValidator.prepareTaskData bt au).data).isValid
      = true := hvalid
  obtain ⟨ht, ha⟩ := validateTaskData_parts hv
  obtain ⟨ht1, ht2, ht3⟩ := validateBookTitle_parts ht
  have ha' := validateAuthor_parts ha
  unfold StorageManager.validateTaskData
  simp only [Task.toJSON, Task.construct]
  rw [if_neg hid, if_neg ht2, if_neg (by omega)]
  have hcond : ¬((TaskValidator.prepareTaskData bt au).data.author ≠ [] ∧
      ((TaskValidator.prepareTaskData bt au).data.author).length > 50) := by
    rintro ⟨hne, hgt⟩
    rcases ha' with h | h
    · exact hne h
    · omega
  rw [if_neg hcond]

theorem sanitizeTaskData_fixed {tj : TaskJson}
    (hid : StorageManager.sanitizeString tj.id = tj.id)
    (hbt : StorageManager.sanitizeString tj.bookTitle = tj.bookTitle)
    (hau : StorageManager.sanitizeString tj.author = tj.author) :
    StorageManager.sanitizeTaskData tj = tj := by
  obtain ⟨i, b, a, st, ca, co⟩ := tj
  simp only at hid hbt hau
  by_cases ha : a = []
  · subst ha
    simp [StorageManager.sanitizeTaskData, hid, hbt]
  · simp [StorageManager.sanitizeTaskData, hid, hbt, hau, ha]

theorem saveTask_ok_append (st : SMState) {w : World} {task : TaskJson}
    (hval : StorageManager.validateTaskData task = true)
    (hfresh : ∀ t ∈ loadedView w, t.id ≠ task.id)
    (hsan : StorageManager.sanitizeTaskData task = task)
    (hset : w.setOk = true) :
    (StorageManager.saveTask st w task).1 = true ∧
    loadedView (StorageManager.saveTask st w task).2.2 = loadedView w ++ [task] := by
  unfold StorageManager.saveTask
  simp only [hval, Bool.true_eq_false, if_false]
  rcases hl : StorageManager.loadTasks st w with ⟨tasks, st1⟩
  have htasks : tasks = loadedView w := by
    have := loadTasks_fst st w
    rw [hl] at this
    exact this
  subst htasks
  have hnone : jsFindIndex (fun t => decide (t.id = task.id)) (loadedView w) = none :=
    jsFindIndex_eq_none (fun x hx => by simp [hfresh x hx])
  simp only [hl, hnone, hsan]
  exact saveTasks_ok st1 w _ hset

theorem applyUpdates_complete (d : TaskJson) (now : Nat) :
    StorageManager.applyUpdates d
      { status := some Status.completed, completedAt := some (some now) } =
      completedSnapshot d now := by
  obtain ⟨i, b, a, st, ca, co⟩ := d
  cases co <;>
    simp [StorageManager.applyUpdates, completedSnapshot, Task.fromJSON,
      Task.toJSON, Task.construct, Task.complete, newDate]

theorem updateTask_ok (st : SMState) {w : World} {taskId : Str} (upd : TaskUpdates)
    {i : Nat}
    (hfind : jsFindIndex (fun t => decide (t.id = taskId)) (loadedView w) = some i)
    (hset : w.setOk = true) :
    (StorageManager.updateTask st w taskId upd).1 = true ∧
    loadedView (StorageManager.updateTask st w taskId upd).2.2 =
      setAt (loadedView w) i (StorageManager.applyUpdates (getAt (loadedView w) i) upd) := by
  unfold StorageManager.updateTask
  rcases hl : StorageManager.loadTasks st w with ⟨tasks, st1⟩
  have htasks : tasks = loadedView w := by
    have := loadTasks_fst st w
    rw [hl] at this
    exact this
  subst htasks
  simp only [hl, hfind]
  exact saveTasks_ok st1 w _ hset

theorem smDeleteTask_ok (st : SMState) {w : World} {taskId : Str} {i : Nat}
    (hfind : jsFindIndex (fun t => decide (t.id = taskId)) (loadedView w) = some i)
    (hset : w.setOk = true) :
    (StorageManager.deleteTask st w taskId).1 = true ∧
    loadedView (StorageManager.deleteTask st w taskId).2.2 =
      (loadedView w).filter (fun t => decide (t.id ≠ taskId)) := by
  unfold StorageManager.deleteTask
  rcases hl : StorageManager.loadTasks st w with ⟨tasks, st1⟩
  have htasks : tasks = loadedView w := by
    have := loadTasks_fst st w
    rw [hl] at this
    exact this
  subst htasks
  have hpred : (fun t : TaskJson => decide (t.id ≠ taskId)) =
      (fun t : TaskJson => !(decide (t.id = taskId))) := by
    funext t
    simp [decide_not]
  have hne : ((loadedView w).filter (fun t => decide (t.id ≠ taskId))).length ≠
      (loadedView w).length := by
    rw [hpred]
    exact filter_not_length_ne hfind
  simp only [hl, hne, if_false]
  exact saveTasks_ok st1 w _ hset

/-- C1 counterexample: a successful addTask after which the in-memory
mirror does not equal loadAll() on the adapter: the title a-tab-b passes
validation unchanged, but the storage boundary's sanitizeString strips
the tab from the persisted record, so the mirror holds a-tab-b while
loadAll() yields ab; no reload happens that would resynchronize them. -/
theorem c1_counterexample :
    (TaskManager.addTask sysEmpty (toL "a\tb") (toL "") (toL "t1") 5).1.isSome = true ∧
    (TaskManager.addTask sysEmpty (toL "a\tb") (toL "") (toL "t1") 5).2.tm ≠
      loadedView (TaskManager.addTask sysEmpty (toL "a\tb") (toL "") (toL "t1") 5).2.w := by
  refine ⟨by decide, by decide⟩

/-- C1 amended: the registry does not reload after mutating; it patches
the mirror in place. The mirror still equals loadAll() afterward for
successful completeTask and deleteTask (the latter given unique ids), and
for successful addTask exactly when the storage boundary's sanitizeString
leaves the new record's id, title and author unchanged — otherwise the
mirror and the store diverge (see the counterexample). -/
theorem c1_amended :
    (∀ (sys : Sys) (taskId : Str) (now : Nat) (i : Nat),
      sys.tm = loadedView sys.w →
      jsFindIndex (fun t => decide (t.id = taskId)) sys.tm = some i →
      ¬ (getAt sys.tm i).status = Status.completed →
      sys.w.setOk = true →
      (TaskManager.completeTask sys taskId now).1.isSome = true ∧
      (TaskManager.completeTask sys taskId now).2.tm =
        loadedView (TaskManager.completeTask sys taskId now).2.w) ∧
    (∀ (sys : Sys) (taskId : Str) (i : Nat),
      sys.tm = loadedView sys.w →
      jsFindIndex (fun t => decide (t.id = taskId)) sys.tm = some i →
      (sys.tm.filter (fun t => decide (t.id = taskId))).length ≤ 1 →
      sys.w.setOk = true →
      (TaskManager.deleteTask sys taskId).1 = true ∧
      (TaskManager.deleteTask sys taskId).2.tm =
        loadedView (TaskManager.deleteTask sys taskId).2.w) ∧
    (∀ (sys : Sys) (bt au freshId : Str) (now : Nat),
      sys.tm = loadedView sys.w →
      (∀ t ∈ sys.tm, t.id ≠ freshId) →
      (TaskValidator.prepareTaskData bt au).validation.isValid = true →
      freshId ≠ [] →
      StorageManager.sanitizeString freshId = freshId →
      StorageManager.sanitizeString (TaskValidator.prepareTaskData bt au).data.bookTitle =
        (TaskValidator.prepareTaskData bt au).data.bookTitle →
      StorageManager.sanitizeString (TaskValidator.prepareTaskData bt au).data.author =
        (TaskValidator.prepareTaskData bt au).data.author →
      sys.w.setOk = true →
      (TaskManager.addTask sys bt au freshId now).1.isSome = true ∧
      (TaskManager.addTask sys bt au freshId now).2.tm =
        loadedView (TaskManager.addTask sys bt au freshId now).2.w) := by
  refine ⟨?_, ?_, ?_⟩
  · intro sys taskId now i hsync hfind hact hset
    have hfind' : jsFindIndex (fun t => decide (t.id = taskId)) (loadedView sys.w) =
        some i := by
      rw [← hsync]
      exact hfind
    obtain ⟨hu1, hu2⟩ := updateTask_ok sys.sm
      { status := some Status.completed, completedAt := some (some now) }
      hfind' hset
    obtain ⟨h1, h2, h3⟩ := completeTask_success hfind hact hu1
    constructor
    · rw [h1]
      rfl
    · rw [h2, h3, hu2, ← hsync, applyUpdates_complete]
  · intro sys taskId i hsync hfind huniq hset
    have hfind' : jsFindIndex (fun t => decide (t.id = taskId)) (loadedView sys.w) =
        some i := by
      rw [← hsync]
      exact hfind
    obtain ⟨hd1, hd2⟩ := smDeleteTask_ok sys.sm hfind' hset
    obtain ⟨h1, h2, h3⟩ := deleteTask_success hfind hd1
    refine ⟨h1, ?_⟩
    rw [h2, h3, hd2, ← hsync]
    have hpred : (fun t : TaskJson => decide (t.id ≠ taskId)) =
        (fun t : TaskJson => !(decide (t.id = taskId))) := by
      funext t
      simp [decide_not]
    rw [hpred]
    exact (filter_not_eq_spliceRemove hfind huniq).symm
  · intro sys bt au freshId now hsync hfresh hvalid hidne hsid hsbt hsau hset
    have hval := storage_validate_of_prepared now hvalid hidne
    have hsan : StorageManager.sanitizeTaskData (Task.toJSON (Task.construct
        (TaskValidator.prepareTaskData bt au).data.bookTitle
        (TaskValidator.prepareTaskData bt au).data.author freshId now)) =
        Task.toJSON (Task.construct
          (TaskValidator.prepareTaskData bt au).data.bookTitle
          (TaskValidator.prepareTaskData bt au).data.author freshId now) :=
      sanitizeTaskData_fixed (by simpa [Task.toJSON, Task.construct] using hsid)
        (by simpa [Task.toJSON, Task.construct] using hsbt)
        (by simpa [Task.toJSON, Task.construct] using hsau)
    have hfresh' : ∀ t ∈ loadedView sys.w, t.id ≠ (Task.toJSON (Task.construct
        (TaskValidator.prepareTaskData bt au).data.bookTitle
        (TaskValidator.prepareTaskData bt au).data.author freshId now)).id := by
      intro t ht
      rw [← hsync] at ht
      simpa [Task.toJSON, Task.construct] using hfresh t ht
    obtain ⟨hs1, hs2⟩ := saveTask_ok_append sys.sm hval hfresh' hsan hset
    unfold TaskManager.addTask
    simp only [hvalid, Bool.true_eq_false, if_false]
    rcases hs : StorageManager.saveTask sys.sm sys.w (Task.toJSON (Task.construct
      (TaskValidator.prepareTaskData bt au).data.bookTitle
      (TaskValidator.prepareTaskData bt au).data.author freshId now)) with ⟨saved, sm', w'⟩
    rw [hs] at hs1 hs2
    simp only at hs1 hs2
    subst hs1
    simp only [if_true]
    refine ⟨rfl, ?_⟩
    rw [hs2, ← hsync]

/-- C1 amended, witness: in the synchronized two-task system, completing
t1, deleting t2, and adding a fresh clean-titled task t3 each leave the
mirror equal to the adapter's loadAll view. -/
theorem c1_amended_witness :
    ((TaskManager.completeTask sysTwo (toL "t1") 9).1.isSome = true ∧
      (TaskManager.completeTask sysTwo (toL "t1") 9).2.tm =
        loadedView (TaskManager.completeTask sysTwo (toL "t1") 9).2.w) ∧
    ((TaskManager.deleteTask sysTwo (toL "t2")).1 = true ∧
      (TaskManager.deleteTask sysTwo (toL "t2")).2.tm =
        loadedView (TaskManager.deleteTask sysTwo (toL "t2")).2.w) ∧
    ((TaskManager.addTask sysTwo (toL "New") (toL "") (toL "t3") 7).1.isSome = true ∧
      (TaskManager.addTask sysTwo (toL "New") (toL "") (toL "t3") 7).2.tm =
        loadedView (TaskManager.addTask sysTwo (toL "New") (toL "") (toL "t3") 7).2.w) :=
  ⟨c1_amended.1 sysTwo (toL "t1") 9 0 (by decide) (by decide) (by decide) (by decide),
    c1_amended.2.1 sysTwo (toL "t2") 1 (by decide) (by decide) (by decide) (by decide),
    c1_amended.2.2 sysTwo (toL "New") (toL "") (toL "t3") 7 (by decide) (by decide)
      (by decide) (by decide) (by decide) (by decide) (by decide) (by decide)⟩

end RD
